import Mathlib

/-!
# Bluetooth link of the midterm car project (`arduino/midterm_project/bluetooth.h`)

A shallow embedding of the three functions of `bluetooth.h` (`ask_BT`, `send_msg`,
`send_byte`) and of the part of the board they touch:

* `Serial1`, the Bluetooth serial port: the bytes waiting in its receive buffer and the
  bytes handed to `Serial1.write`, oldest first;
* `Serial`, the diagnostic port: the calls made on it, oldest first;
* the caller's objects reached through `byte* id` and `byte& idSize`.

Bytes are natural numbers; the `byte` loop counter is incremented modulo `2^8`.
The build flag `DEBUG` (`#ifdef DEBUG`) is a boolean argument.
-/

namespace Bluetooth

/-- The command type `enum BT_CMD`; the source declares the single value `NOTHING`. -/
inductive BT_CMD where
  | NOTHING
  deriving DecidableEq, Repr

/-- One call made on the diagnostic port `Serial`, with its argument. -/
inductive SerialCall where
  /-- The call `Serial.print("...")` with a string literal. -/
  | print_text (s : String)
  /-- The call `Serial.println(cmd)` with a `char`. -/
  | println_char (c : Nat)
  /-- The call `Serial.print(b, HEX)` with a byte. -/
  | print_hex (b : Nat)
  /-- The call `Serial.println()`. -/
  | println_empty
  deriving DecidableEq, Repr

/-- The two serial ports of the board. -/
structure Ports where
  /-- Bytes waiting in the receive buffer of `Serial1`; the head is the next byte to read. -/
  rx1 : List Nat
  /-- Bytes handed to `Serial1.write` so far, oldest first. -/
  tx1 : List Nat
  /-- Calls made on `Serial` so far, oldest first. -/
  serial : List SerialCall
  deriving DecidableEq, Repr

/-- The caller's objects that `send_byte` reaches through `byte* id` and `byte& idSize`. -/
structure Uid where
  /-- The array `id` points into, from `id[0]` on. -/
  id : List Nat
  /-- The byte `idSize` refers to. -/
  idSize : Nat
  deriving DecidableEq, Repr

/-- Ways in which a run of `send_byte` does not return. -/
inductive Fault where
  /-- The read `id[i]` fell outside the array. -/
  | out_of_bounds
  /-- The loop was still running when the allowance of condition tests ran out. -/
  | fuel
  deriving DecidableEq, Repr

/-- The value of `Serial1.available()`: the number of bytes waiting. -/
def available (p : Ports) : Nat :=
  p.rx1.length

/-- The function `ask_BT`. The local `char cmd` is never assigned, so its content `cmd` is
whatever the stack holds and is an argument here. Nothing under
`if (Serial1.available())` reads `Serial1`; only the `DEBUG` lines are there. -/
def ask_BT (DEBUG : Bool) (cmd : Nat) (p : Ports) : BT_CMD × Ports :=
  let message := BT_CMD.NOTHING
  if available p ≠ 0 then
    if DEBUG then
      (message, { p with serial := p.serial ++ [.print_text "cmd : ", .println_char cmd] })
    else
      (message, p)
  else
    (message, p)

/-- The function `send_msg`; its body is empty. -/
def send_msg (_msg : Nat) (p : Ports) : Ports :=
  p

/-- The statement `Serial1.write(b)`. -/
def write1 (b : Nat) (p : Ports) : Ports :=
  { p with tx1 := p.tx1 ++ [b] }

/-- The statement `Serial.print(b, HEX)`. -/
def printHex (b : Nat) (p : Ports) : Ports :=
  { p with serial := p.serial ++ [.print_hex b] }

/-- The loop `for (byte i = ...; i < idSize; i++) body(id[i])`, entered with counter `i`.
`idSize` is read again at every test, `i++` is an increment of a `byte`, and the first
argument bounds the number of times the condition is tested. -/
def forBytes (body : Nat → Ports → Ports) : Nat → Uid → Nat → Ports → Except Fault (Uid × Ports)
  | 0, _, _, _ => .error .fuel
  | fuel + 1, u, i, p =>
    if i < u.idSize then
      match u.id[i]? with
      | none => .error .out_of_bounds
      | some b => forBytes body fuel u ((i + 1) % 256) (body b p)
    else
      .ok (u, p)

/-- The function `send_byte`. A `byte` counter has 256 values and neither loop writes
`idSize`, so a loop that tests its condition 256 times without leaving never leaves. -/
def send_byte (DEBUG : Bool) (u : Uid) (p : Ports) : Except Fault (Uid × Ports) :=
  match forBytes write1 256 u 0 p with
  | .error e => .error e
  | .ok (u1, p1) =>
    if DEBUG then
      match forBytes printHex 256 u1 0
          { p1 with serial := p1.serial ++ [.print_text "Sent id: "] } with
      | .error e => .error e
      | .ok (u2, p2) => .ok (u2, { p2 with serial := p2.serial ++ [.println_empty] })
    else
      .ok (u1, p1)

/-- Everything a run of `send_byte` leaves behind except the calls on `Serial`. -/
def functional (r : Uid × Ports) : Uid × List Nat × List Nat :=
  (r.1, r.2.rx1, r.2.tx1)

/-- A run of `ask_BT` calls one after the other, the `k`-th one finding the `k`-th entry of
the list in its unassigned local `cmd`. -/
def polls (DEBUG : Bool) : List Nat → Ports → Ports
  | [], p => p
  | c :: cs, p => polls DEBUG cs (ask_BT DEBUG c p).2

/-- The identifier `DE AD BE EF` with its size. -/
def uidDeadBeef : Uid :=
  ⟨[0xDE, 0xAD, 0xBE, 0xEF], 4⟩

/-- Ports on which nothing has happened yet and nothing is waiting. -/
def idle : Ports :=
  ⟨[], [], []⟩

/-- Ports on which nothing has happened yet and the byte `0x41` is waiting on `Serial1`. -/
def oneWaiting : Ports :=
  ⟨[0x41], [], []⟩

/-- Ports that have been used: `0x41` and `0x42` are waiting on `Serial1`, two bytes have
been written to it and one call has been made on `Serial`. -/
def used : Ports :=
  ⟨[0x41, 0x42], [1, 2], [.print_hex 3]⟩

/-! ## Lemmas on the loop -/

/-- Running `Serial1.write` over a list of bytes appends them to the output. -/
theorem foldl_write1 (bs : List Nat) (p : Ports) :
    bs.foldl (fun q b => write1 b q) p = { p with tx1 := p.tx1 ++ bs } := by
  induction bs generalizing p with
  | nil => simp
  | cons b bs ih =>
    rw [List.foldl_cons, ih]
    simp [write1]

/-- Running `Serial.print(_, HEX)` over a list of bytes appends one call per byte. -/
theorem foldl_printHex (bs : List Nat) (p : Ports) :
    bs.foldl (fun q b => printHex b q) p
      = { p with serial := p.serial ++ bs.map SerialCall.print_hex } := by
  induction bs generalizing p with
  | nil => simp
  | cons b bs ih =>
    rw [List.foldl_cons, ih]
    simp [printHex]

/-- Whether the loop returns, and over which bytes it runs its body, depends neither on the
body nor on the ports; the caller's objects come back as they were. -/
theorem forBytes_shape (fuel : Nat) (u : Uid) (i : Nat) :
    (∃ e, ∀ (body : Nat → Ports → Ports) (p : Ports), forBytes body fuel u i p = .error e) ∨
    (∃ bs : List Nat, ∀ (body : Nat → Ports → Ports) (p : Ports),
      forBytes body fuel u i p = .ok (u, bs.foldl (fun q b => body b q) p)) := by
  induction fuel generalizing i with
  | zero => exact Or.inl ⟨.fuel, fun _ _ => rfl⟩
  | succ fuel ih =>
    by_cases hi : i < u.idSize
    · cases hb : u.id[i]? with
      | none =>
        refine Or.inl ⟨.out_of_bounds, fun body p => ?_⟩
        simp [forBytes, hi, hb]
      | some b =>
        rcases ih ((i + 1) % 256) with ⟨e, he⟩ | ⟨bs, hbs⟩
        · refine Or.inl ⟨e, fun body p => ?_⟩
          simp [forBytes, hi, hb, he]
        · refine Or.inr ⟨b :: bs, fun body p => ?_⟩
          simp [forBytes, hi, hb, hbs]
    · refine Or.inr ⟨[], fun body p => ?_⟩
      simp [forBytes, hi]

/-- With `idSize` a byte and the array at least `idSize` long, the loop entered at counter
`i` with `n` bytes to go returns as soon as it may test its condition `n + 1` times, and
has run its body on `id[i], ..., id[i + n - 1]` in that order. -/
theorem forBytes_run (body : Nat → Ports → Ports) (u : Uid)
    (hs : u.idSize < 256) (hl : u.idSize ≤ u.id.length) :
    ∀ (n i fuel : Nat) (p : Ports), i + n = u.idSize → n < fuel →
      forBytes body fuel u i p
        = .ok (u, ((u.id.drop i).take n).foldl (fun q b => body b q) p) := by
  intro n
  induction n with
  | zero =>
    intro i fuel p hin hf
    obtain ⟨f, rfl⟩ : ∃ f, fuel = f + 1 := ⟨fuel - 1, by omega⟩
    have hi : ¬ i < u.idSize := by omega
    simp [forBytes, hi]
  | succ n ih =>
    intro i fuel p hin hf
    obtain ⟨f, rfl⟩ : ∃ f, fuel = f + 1 := ⟨fuel - 1, by omega⟩
    have hi : i < u.idSize := by omega
    have hlen : i < u.id.length := by omega
    have hwrap : (i + 1) % 256 = i + 1 := Nat.mod_eq_of_lt (by omega)
    have hget : u.id[i]? = some u.id[i] := List.getElem?_eq_getElem hlen
    have hdrop : u.id.drop i = u.id[i] :: u.id.drop (i + 1) := List.drop_eq_getElem_cons hlen
    rw [forBytes]
    simp only [hi, if_true, hget, hwrap]
    rw [ih (i + 1) f (body u.id[i] p) (by omega) (by omega), hdrop]
    rfl

/-- With fewer than `n + 1` condition tests allowed, the loop entered with `n` bytes to go
is still running when the allowance ends. -/
theorem forBytes_short (body : Nat → Ports → Ports) (u : Uid)
    (hs : u.idSize < 256) (hl : u.idSize ≤ u.id.length) :
    ∀ (fuel i : Nat) (p : Ports), i + fuel ≤ u.idSize →
      forBytes body fuel u i p = .error .fuel := by
  intro fuel
  induction fuel with
  | zero => intro i p _; rfl
  | succ f ih =>
    intro i p hif
    have hi : i < u.idSize := by omega
    have hlen : i < u.id.length := by omega
    have hwrap : (i + 1) % 256 = i + 1 := Nat.mod_eq_of_lt (by omega)
    have hget : u.id[i]? = some u.id[i] := List.getElem?_eq_getElem hlen
    rw [forBytes]
    simp only [hi, if_true, hget, hwrap]
    exact ih (i + 1) _ (by omega)

/-- The send loop of `send_byte` on a byte-sized `idSize` and a long enough array. -/
theorem send_loop_ok (u : Uid) (p : Ports) (hs : u.idSize < 256)
    (hl : u.idSize ≤ u.id.length) (fuel : Nat) (hf : u.idSize < fuel) :
    forBytes write1 fuel u 0 p = .ok (u, { p with tx1 := p.tx1 ++ u.id.take u.idSize }) := by
  rw [forBytes_run write1 u hs hl u.idSize 0 fuel p (by omega) hf, foldl_write1]
  simp

/-- The `DEBUG` loop of `send_byte` on a byte-sized `idSize` and a long enough array. -/
theorem show_loop_ok (u : Uid) (p : Ports) (hs : u.idSize < 256)
    (hl : u.idSize ≤ u.id.length) (fuel : Nat) (hf : u.idSize < fuel) :
    forBytes printHex fuel u 0 p
      = .ok (u, { p with
          serial := p.serial ++ (u.id.take u.idSize).map SerialCall.print_hex }) := by
  rw [forBytes_run printHex u hs hl u.idSize 0 fuel p (by omega) hf, foldl_printHex]
  simp

/-- What `send_byte` returns on a byte-sized `idSize` and a long enough array. -/
theorem send_byte_ok (DEBUG : Bool) (u : Uid) (p : Ports) (hs : u.idSize < 256)
    (hl : u.idSize ≤ u.id.length) :
    send_byte DEBUG u p
      = .ok (u, { p with
          tx1 := p.tx1 ++ u.id.take u.idSize
          serial := if DEBUG then
              p.serial ++ [SerialCall.print_text "Sent id: "]
                ++ (u.id.take u.idSize).map SerialCall.print_hex ++ [SerialCall.println_empty]
            else p.serial }) := by
  unfold send_byte
  rw [send_loop_ok u p hs hl 256 hs]
  cases DEBUG with
  | false => simp
  | true =>
    simp only [if_true]
    rw [show_loop_ok u _ hs hl 256 hs]

/-- No call of `ask_BT` takes a byte off `Serial1`, in either build. -/
theorem ask_BT_rx1 (DEBUG : Bool) (cmd : Nat) (p : Ports) :
    (ask_BT DEBUG cmd p).2.rx1 = p.rx1 := by
  unfold ask_BT
  split_ifs <;> rfl

/-- No call of `ask_BT` writes to `Serial1`, in either build. -/
theorem ask_BT_tx1 (DEBUG : Bool) (cmd : Nat) (p : Ports) :
    (ask_BT DEBUG cmd p).2.tx1 = p.tx1 := by
  unfold ask_BT
  split_ifs <;> rfl

/-- The command `ask_BT` returns is `NOTHING`, in either build and on any ports. -/
theorem ask_BT_fst (DEBUG : Bool) (cmd : Nat) (p : Ports) :
    (ask_BT DEBUG cmd p).1 = BT_CMD.NOTHING := by
  unfold ask_BT
  split_ifs <;> rfl

/-! ## The claims -/

/-- C1: for an identifier array `id` and a size `idSize` in `0..255` that the array covers,
`send_byte` returns, and what it has written to `Serial1` is exactly the first `idSize`
bytes of `id`: `idSize` bytes, the `k`-th of them `id[k]`. -/
theorem send_byte_writes_identifier (DEBUG : Bool) (u : Uid) (p : Ports)
    (hs : u.idSize < 256) (hl : u.idSize ≤ u.id.length) :
    ∃ r, send_byte DEBUG u p = .ok r ∧
      r.2.tx1 = p.tx1 ++ u.id.take u.idSize ∧
      (u.id.take u.idSize).length = u.idSize ∧
      ∀ k, k < u.idSize → (u.id.take u.idSize)[k]? = u.id[k]? := by
  refine ⟨_, send_byte_ok DEBUG u p hs hl, rfl, ?_, ?_⟩
  · simpa using hl
  · intro k hk
    rw [List.getElem?_take_of_lt hk]

/-- C1 at `DE AD BE EF`: the four bytes go out unchanged and in order. -/
theorem send_byte_writes_identifier_witness :
    ∃ r, send_byte false uidDeadBeef idle = .ok r ∧
      r.2.tx1 = [] ++ [0xDE, 0xAD, 0xBE, 0xEF] ∧
      ([0xDE, 0xAD, 0xBE, 0xEF] : List Nat).length = 4 ∧
      ∀ k, k < 4 → ([0xDE, 0xAD, 0xBE, 0xEF] : List Nat)[k]? = uidDeadBeef.id[k]? :=
  send_byte_writes_identifier false uidDeadBeef idle (by decide) (by decide)

/-- C2: with no byte available on `Serial1`, `ask_BT` returns `NOTHING` and leaves the
input stream as it was. -/
theorem ask_BT_no_input (DEBUG : Bool) (cmd : Nat) (p : Ports) (h : available p = 0) :
    (ask_BT DEBUG cmd p).1 = BT_CMD.NOTHING ∧ (ask_BT DEBUG cmd p).2.rx1 = p.rx1 := by
  simp [ask_BT, h]

/-- C2 on idle ports, `DEBUG` build. -/
theorem ask_BT_no_input_witness :
    (ask_BT true 0x5A idle).1 = BT_CMD.NOTHING ∧ (ask_BT true 0x5A idle).2.rx1 = idle.rx1 :=
  ask_BT_no_input true 0x5A idle (by decide)

/-- C3, the code at the failing input: with the byte `0x41` waiting, `ask_BT` returns with
the byte still waiting, in both builds; the stream has not lost its head. -/
theorem ask_BT_leaves_byte :
    (ask_BT false 0x5A oneWaiting).2.rx1 = [0x41] ∧
    (ask_BT true 0x5A oneWaiting).2.rx1 = [0x41] ∧
    (ask_BT false 0x5A oneWaiting).2.rx1 ≠ oneWaiting.rx1.tail := by
  decide

/-- C4: whatever byte `b` heads the input stream, `ask_BT` returns, and the command it
returns is `NOTHING`. -/
theorem ask_BT_every_byte_nothing (DEBUG : Bool) (cmd b : Nat) (rest tx : List Nat)
    (diag : List SerialCall) :
    (ask_BT DEBUG cmd ⟨b :: rest, tx, diag⟩).1 = BT_CMD.NOTHING :=
  ask_BT_fst DEBUG cmd _

/-- C5, the code at the failing input: `send_msg` of the character `A` writes nothing to
`Serial1`. -/
theorem send_msg_writes_nothing :
    (send_msg 0x41 idle).tx1 = [] ∧ (send_msg 0x41 idle).tx1 ≠ [0x41] := by
  decide

/-- C6: the `DEBUG` build and the plain build of `ask_BT` return the same command and leave
`Serial1` the same, whatever the unassigned local holds; the two builds of `send_byte`
return or fail alike, and when they return they leave the same caller objects and the same
`Serial1`. Only `Serial` can differ. -/
theorem debug_keeps_function (cmd cmd' : Nat) (u : Uid) (p : Ports) :
    (ask_BT true cmd p).1 = (ask_BT false cmd' p).1 ∧
    (ask_BT true cmd p).2.rx1 = (ask_BT false cmd' p).2.rx1 ∧
    (ask_BT true cmd p).2.tx1 = (ask_BT false cmd' p).2.tx1 ∧
    (send_byte true u p).map functional = (send_byte false u p).map functional := by
  refine ⟨?_, ?_, ?_, ?_⟩
  · exact (ask_BT_fst true cmd p).trans (ask_BT_fst false cmd' p).symm
  · rw [ask_BT_rx1, ask_BT_rx1]
  · rw [ask_BT_tx1, ask_BT_tx1]
  · rcases forBytes_shape 256 u 0 with ⟨e, he⟩ | ⟨bs, hbs⟩
    · simp [send_byte, he]
    · simp [send_byte, hbs, foldl_write1, foldl_printHex, functional, Except.map]

/-- C7: when `send_byte` is given a byte-sized `idSize` and an array that covers it, it
returns, and the array and `idSize` hold what they held before the call. -/
theorem send_byte_frame (DEBUG : Bool) (u : Uid) (p : Ports)
    (hs : u.idSize < 256) (hl : u.idSize ≤ u.id.length) :
    ∃ r, send_byte DEBUG u p = .ok r ∧ r.1.id = u.id ∧ r.1.idSize = u.idSize :=
  ⟨_, send_byte_ok DEBUG u p hs hl, rfl, rfl⟩

/-- C7 at `DE AD BE EF`, `DEBUG` build. -/
theorem send_byte_frame_witness :
    ∃ r, send_byte true uidDeadBeef idle = .ok r ∧
      r.1.id = [0xDE, 0xAD, 0xBE, 0xEF] ∧ r.1.idSize = 4 :=
  send_byte_frame true uidDeadBeef idle (by decide) (by decide)

/-- C8: take two calls of `ask_BT`, each made after any number of earlier calls on any
ports, that find the same thing at the input stream (nothing waiting, or the same next
byte). They return the same command, whatever the unassigned local holds, and with the
same content of that local they have the same effect: they take the same number of bytes
off `Serial1`, write the same bytes to `Serial1` and make the same calls on `Serial`.
What the earlier calls left behind on the ports is not read. -/
theorem ask_BT_stateless (DEBUG : Bool) (c c₁ c₂ : Nat) (cs₁ cs₂ : List Nat) (p₁ p₂ : Ports)
    (h : (polls DEBUG cs₁ p₁).rx1.head? = (polls DEBUG cs₂ p₂).rx1.head?) :
    (ask_BT DEBUG c₁ (polls DEBUG cs₁ p₁)).1 = (ask_BT DEBUG c₂ (polls DEBUG cs₂ p₂)).1 ∧
    ∃ (k : Nat) (dt : List Nat) (ds : List SerialCall),
      (ask_BT DEBUG c (polls DEBUG cs₁ p₁)).2.rx1 = (polls DEBUG cs₁ p₁).rx1.drop k ∧
      (ask_BT DEBUG c (polls DEBUG cs₂ p₂)).2.rx1 = (polls DEBUG cs₂ p₂).rx1.drop k ∧
      (ask_BT DEBUG c (polls DEBUG cs₁ p₁)).2.tx1 = (polls DEBUG cs₁ p₁).tx1 ++ dt ∧
      (ask_BT DEBUG c (polls DEBUG cs₂ p₂)).2.tx1 = (polls DEBUG cs₂ p₂).tx1 ++ dt ∧
      (ask_BT DEBUG c (polls DEBUG cs₁ p₁)).2.serial = (polls DEBUG cs₁ p₁).serial ++ ds ∧
      (ask_BT DEBUG c (polls DEBUG cs₂ p₂)).2.serial = (polls DEBUG cs₂ p₂).serial ++ ds := by
  generalize polls DEBUG cs₁ p₁ = q₁ at h ⊢
  generalize polls DEBUG cs₂ p₂ = q₂ at h ⊢
  refine ⟨(ask_BT_fst DEBUG c₁ q₁).trans (ask_BT_fst DEBUG c₂ q₂).symm, ?_⟩
  obtain ⟨r₁, t₁, s₁⟩ := q₁
  obtain ⟨r₂, t₂, s₂⟩ := q₂
  cases r₁ with
  | nil =>
    cases r₂ with
    | nil => exact ⟨0, [], [], by simp [ask_BT, available]⟩
    | cons b₂ r₂ => simp at h
  | cons b₁ r₁ =>
    cases r₂ with
    | nil => simp at h
    | cons b₂ r₂ =>
      cases DEBUG with
      | false => exact ⟨0, [], [], by simp [ask_BT, available]⟩
      | true =>
        exact ⟨0, [], [SerialCall.print_text "cmd : ", SerialCall.println_char c],
          by simp [ask_BT, available]⟩

/-- C8 in the `DEBUG` build with the byte `0x41` next on both sides: a call that follows
three others on fresh ports, and a first call on ports that have been used. -/
theorem ask_BT_stateless_witness :
    (ask_BT true 1 (polls true [7, 8, 9] oneWaiting)).1
        = (ask_BT true 2 (polls true [] used)).1 ∧
    ∃ (k : Nat) (dt : List Nat) (ds : List SerialCall),
      (ask_BT true 0x5A (polls true [7, 8, 9] oneWaiting)).2.rx1
        = (polls true [7, 8, 9] oneWaiting).rx1.drop k ∧
      (ask_BT true 0x5A (polls true [] used)).2.rx1 = (polls true [] used).rx1.drop k ∧
      (ask_BT true 0x5A (polls true [7, 8, 9] oneWaiting)).2.tx1
        = (polls true [7, 8, 9] oneWaiting).tx1 ++ dt ∧
      (ask_BT true 0x5A (polls true [] used)).2.tx1 = (polls true [] used).tx1 ++ dt ∧
      (ask_BT true 0x5A (polls true [7, 8, 9] oneWaiting)).2.serial
        = (polls true [7, 8, 9] oneWaiting).serial ++ ds ∧
      (ask_BT true 0x5A (polls true [] used)).2.serial = (polls true [] used).serial ++ ds :=
  ask_BT_stateless true 0x5A 1 2 [7, 8, 9] [] oneWaiting used (by decide)

/-- C9, the code at the failing input: in the `DEBUG` build, with the byte `0x41` waiting
and `0x5A` left in the unassigned local, the line after `cmd : ` shows `0x5A`, and `0x41`
is still waiting. -/
theorem ask_BT_debug_prints_local :
    ask_BT true 0x5A oneWaiting
      = (BT_CMD.NOTHING,
          ⟨[0x41], [], [SerialCall.print_text "cmd : ", SerialCall.println_char 0x5A]⟩) := by
  decide

/-- What `send_byte` echoes: in the `DEBUG` build `Serial` gets `Sent id: `, then the
bytes `id[0], ..., id[idSize - 1]` in hexadecimal in that order, then a line end. -/
theorem send_byte_debug_echo (u : Uid) (p : Ports)
    (hs : u.idSize < 256) (hl : u.idSize ≤ u.id.length) :
    ∃ r, send_byte true u p = .ok r ∧
      r.2.serial = p.serial ++ [SerialCall.print_text "Sent id: "]
        ++ (u.id.take u.idSize).map SerialCall.print_hex ++ [SerialCall.println_empty] :=
  ⟨_, send_byte_ok true u p hs hl, rfl⟩

/-- C10: for `idSize` in `0..255` and an array of at least `idSize` bytes, the send loop
leaves after `idSize` runs of its body: it returns whenever it may test its condition more
than `idSize` times, it is still running after `idSize` tests or fewer, it has then
written `idSize` bytes, no increment of the counter wraps, and it returns as well on the
array cut to `idSize` entries, where a read at `idSize` or above is a fault. -/
theorem send_loop_terminates (u : Uid) (p : Ports)
    (hs : u.idSize < 256) (hl : u.idSize ≤ u.id.length) :
    (∀ fuel, u.idSize < fuel →
      forBytes write1 fuel u 0 p = .ok (u, { p with tx1 := p.tx1 ++ u.id.take u.idSize })) ∧
    (∀ fuel, fuel ≤ u.idSize → forBytes write1 fuel u 0 p = .error .fuel) ∧
    (p.tx1 ++ u.id.take u.idSize).length = p.tx1.length + u.idSize ∧
    (∀ i, i < u.idSize → (i + 1) % 256 = i + 1) ∧
    (∃ q, forBytes write1 256 ⟨u.id.take u.idSize, u.idSize⟩ 0 p
      = .ok (⟨u.id.take u.idSize, u.idSize⟩, q)) := by
  refine ⟨fun fuel hf => send_loop_ok u p hs hl fuel hf,
    fun fuel hf => forBytes_short write1 u hs hl fuel 0 p (by omega), ?_,
    fun i hi => Nat.mod_eq_of_lt (by omega), ?_⟩
  · simp [hl]
  · exact ⟨_, send_loop_ok ⟨u.id.take u.idSize, u.idSize⟩ p hs (by simp [hl]) 256 hs⟩

/-- C10 at `DE AD BE EF`: five tests of the condition are enough, four are not. -/
theorem send_loop_terminates_witness :
    forBytes write1 5 uidDeadBeef 0 idle
        = .ok (uidDeadBeef, ⟨[], [0xDE, 0xAD, 0xBE, 0xEF], []⟩) ∧
      forBytes write1 4 uidDeadBeef 0 idle = .error .fuel :=
  ⟨(send_loop_terminates uidDeadBeef idle (by decide) (by decide)).1 5 (by decide),
    (send_loop_terminates uidDeadBeef idle (by decide) (by decide)).2.1 4 (by decide)⟩

set_option maxRecDepth 8192 in
/-- The ends of the byte range: size `0` writes nothing, size `255` writes 255 bytes. -/
theorem send_byte_range_ends :
    send_byte false ⟨[], 0⟩ idle = .ok (⟨[], 0⟩, idle) ∧
    (send_byte false ⟨List.replicate 255 0x41, 255⟩ idle).map (fun r => r.2.tx1.length)
      = .ok 255 := by
  constructor <;> rfl

end Bluetooth
